import Mathlib

/-!
Shallow embedding of the rsi-sniper repository: two Binance alert bots.

* `src/unnamed/part_000` (momentum bot): per-symbol rolling window of close
  prices (capacity 100), RSI(15) metric, hysteresis alert state machine with
  thresholds 80/20, shared alert queue drained one message per 1100 ms.
* `src/index.ts` (volume bot): per-symbol rolling window of notional volumes
  (capacity 30), stateless spike condition
  `len ≥ 30 ∧ v ≥ 2·avg ∧ v ≥ 50000`, same queue discipline.

Numbers are modelled as rationals (exact arithmetic in place of IEEE doubles);
JavaScript maps `Record<string, T>` are modelled as total functions from
`String` with the absent entry mapped to the lazily-initialised default.
-/

namespace RsiSniper

/-! ### Configuration constants (src/unnamed/part_000 lines 10-15, src/index.ts lines 9-14) -/

def rsiPeriod : ℕ := 15

def rsiUpper : ℚ := 80

def rsiLower : ℚ := 20

/-- Capacity of the momentum close-price window (`if (arr.length > 100) arr.shift()`). -/
def priceWindowCap : ℕ := 100

def volumeMultiplier : ℚ := 2

def candleLimit : ℕ := 30

/-- Absolute notional floor for a volume alert (`volumeUSD >= 50_000`). -/
def volumeFloor : ℚ := 50000

/-- Drain cadence of both alert queues (`setInterval(..., 1100)`). -/
def dispatchIntervalMs : ℕ := 1100

/-! ### RollingWindow: `arr.push(x); if (arr.length > cap) arr.shift()` -/

def pushEvict (cap : ℕ) (w : List ℚ) (x : ℚ) : List ℚ :=
  let w' := w ++ [x]
  if w'.length > cap then w'.tail else w'

/-! ### MetricComputer: Wilder RSI

Modelled from the spec: the momentum bot calls `RSI.calculate` from the
external `technicalindicators` package, whose code is not part of this
repository; spec §4.2 fixes its contract (seed average gain/loss over the
first `period` deltas, Wilder smoothing with factor 1/period afterwards,
`RSI = 100 - 100/(1+RS)`, `RSI = 100` when the average loss is zero, no
output unless at least `period+1` values are available). -/
def rsiCalculate (period : ℕ) (values : List ℚ) : List ℚ :=
  let changes := (values.zip values.tail).map (fun p => p.2 - p.1)
  if changes.length < period then []
  else
    let gain := fun (c : ℚ) => if c > 0 then c else 0
    let loss := fun (c : ℚ) => if c < 0 then -c else 0
    let seed := changes.take period
    let rest := changes.drop period
    let avgGain0 := (seed.map gain).sum / (period : ℚ)
    let avgLoss0 := (seed.map loss).sum / (period : ℚ)
    let smooth := fun (a : ℚ × ℚ) (c : ℚ) =>
      ((a.1 * ((period : ℚ) - 1) + gain c) / (period : ℚ),
       (a.2 * ((period : ℚ) - 1) + loss c) / (period : ℚ))
    (rest.scanl smooth (avgGain0, avgLoss0)).map
      (fun a => if a.2 = 0 then 100 else 100 - 100 / (1 + a.1 / a.2))

/-- The metric value the message handler feeds to the alert decision
(src/unnamed/part_000 lines 128-131): `RSI.calculate` is only invoked once
`arr.length >= rsiPeriod`, and `latest = rsi.at(-1)` is `undefined` exactly
when the result list is empty. -/
def metricOf (arr : List ℚ) : Option ℚ :=
  if arr.length ≥ rsiPeriod then (rsiCalculate rsiPeriod arr).getLast? else none

/-! ### AlertStateMachine (momentum variant) -/

/-- `lastAlert[symbol].type`: `'high' | 'low' | null`; an absent map entry
behaves exactly like `{ type: null }` (line 132), so both are `neutral`. -/
inductive AlertType : Type
  | high
  | low
  | neutral
deriving DecidableEq, Repr

/-- Lines 131-141 of src/unnamed/part_000: the decision taken for one defined
or undefined metric value, returning the new state and whether an alert was
queued. -/
def momentumDecide (latest : Option ℚ) (alertType : AlertType) : AlertType × Bool :=
  match latest with
  | none => (alertType, false)
  | some v =>
    if v > rsiUpper ∧ alertType ≠ .high then (.high, true)
    else if v < rsiLower ∧ alertType ≠ .low then (.low, true)
    else if rsiLower ≤ v ∧ v ≤ rsiUpper then (.neutral, false)
    else (alertType, false)

/-- Per-symbol state of the momentum bot: the close-price window and the
hysteresis state. -/
structure MomState : Type where
  window : List ℚ
  alertType : AlertType
deriving DecidableEq, Repr

/-- One closed 1m kline for one symbol (lines 123-142): push the close price,
evict, compute the metric, run the decision; returns the new per-symbol state
and whether an alert was queued. -/
def momentumTick (s : MomState) (c : ℚ) : MomState × Bool :=
  let arr := pushEvict priceWindowCap s.window c
  let r := momentumDecide (metricOf arr) s.alertType
  (⟨arr, r.1⟩, r.2)

/-- Feed a sequence of already-computed metric values through the state
machine, recording for each one whether an alert was emitted. -/
def runMetrics (st : AlertType) : List ℚ → List Bool
  | [] => []
  | v :: vs =>
    let r := momentumDecide (some v) st
    r.2 :: runMetrics r.1 vs

/-! ### Volume bot tick (src/index.ts lines 112-130) -/

/-- One closed kline of the volume bot for one symbol with notional volume
`v = volume * close`: the spike test runs against the history *before* the
push (`avg = history.reduce(...)/history.length`), then the sample is pushed
and the window evicted to `candleLimit`. -/
def volTick (history : List ℚ) (v : ℚ) : List ℚ × Bool :=
  let avg := history.sum / (history.length : ℚ)
  let fire : Bool :=
    decide (history.length ≥ candleLimit ∧ v ≥ volumeMultiplier * avg ∧ v ≥ volumeFloor)
  (pushEvict candleLimit history v, fire)

/-! ### AlertDispatcher: `setInterval(() => { const next = alertQueue.shift(); ... }, 1100)` -/

/-- One timer tick: `shift()` removes the front of the queue (if any) and the
removed element is sent; a send failure is only logged (`.catch`), the element
is never pushed back. -/
def drainTick {α : Type} : List α → List α × Option α
  | [] => ([], none)
  | a :: rest => (rest, some a)

/-- `k` consecutive timer ticks: returns the remaining queue and the sent
elements in send order. -/
def drainRun {α : Type} (q : List α) : ℕ → List α × List α
  | 0 => (q, [])
  | k + 1 =>
    let t := drainTick q
    let r := drainRun t.1 k
    (r.1, t.2.toList ++ r.2)

/-! ### Whole-process model of the momentum bot's message handler

`Record<string, T>` maps are total functions with the lazily-initialised
default for absent keys (`closePrices[symbol] ||= []`, `lastAlert[symbol] ||
{ type: null }`). A message either parses to a kline for one symbol or is
malformed; a malformed message makes the handler throw before any state is
mutated, and the `catch` only logs, so it is a no-op on the model state. -/

/-- An entry of `alertQueue` as produced by `sendRsiAlert(symbol, latest, close)`. -/
structure PendingAlert : Type where
  sym : String
  rsi : ℚ
  price : ℚ
deriving DecidableEq, Repr

inductive Msg : Type
  | malformed
  | kline (sym : String) (closed : Bool) (close : ℚ)
deriving DecidableEq, Repr

structure GlobalState : Type where
  closePrices : String → List ℚ
  lastAlert : String → AlertType
  alertQueue : List PendingAlert

/-- The `ws.on('message', ...)` handler of the momentum bot
(src/unnamed/part_000 lines 116-147). -/
def processMsg (g : GlobalState) : Msg → GlobalState
  | .malformed => g
  | .kline sym closed c =>
    if closed then
      let arr := pushEvict priceWindowCap (g.closePrices sym) c
      let m := metricOf arr
      let r := momentumDecide m (g.lastAlert sym)
      { closePrices := Function.update g.closePrices sym arr
        lastAlert := Function.update g.lastAlert sym r.1
        alertQueue := g.alertQueue ++ (if r.2 then [⟨sym, m.getD 0, c⟩] else []) }
    else g

def runMsgs (g : GlobalState) (ms : List Msg) : GlobalState :=
  ms.foldl processMsg g

/-- The kline payload of a message, if it concerns symbol `B`. -/
def projM (B : String) : Msg → Option (Bool × ℚ)
  | .malformed => none
  | .kline s closed c => if s = B then some (closed, c) else none

/-- Keep only well-formed messages that do not concern symbol `A`. -/
def notAbout (A : String) : Msg → Bool
  | .malformed => false
  | .kline s _ _ => if s = A then false else true

/-- The evolution of a single symbol's window and alert state on one of its
own kline events, together with the payloads of the alerts it emits. -/
def symStep (x : List ℚ × AlertType) (e : Bool × ℚ) :
    (List ℚ × AlertType) × List (ℚ × ℚ) :=
  if e.1 then
    let arr := pushEvict priceWindowCap x.1 e.2
    let m := metricOf arr
    let r := momentumDecide m x.2
    ((arr, r.1), if r.2 then [(m.getD 0, e.2)] else [])
  else (x, [])

def symRun (x : List ℚ × AlertType) : List (Bool × ℚ) → (List ℚ × AlertType) × List (ℚ × ℚ)
  | [] => (x, [])
  | e :: es =>
    let s := symStep x e
    let r := symRun s.1 es
    (r.1, s.2 ++ r.2)

/-- The payloads of symbol `B`'s alerts in the shared queue. -/
def queueProj (B : String) (q : List PendingAlert) : List (ℚ × ℚ) :=
  (q.filter (fun a => decide (a.sym = B))).map (fun a => (a.rsi, a.price))

/-! ### Whole-process model of the volume bot's message handler -/

/-- An entry of the volume bot's `alertQueue` (`sendVolumeAlert`). -/
structure VolAlert : Type where
  sym : String
  volumeUSD : ℚ
deriving DecidableEq, Repr

inductive VolMsg : Type
  | malformed
  | kline (sym : String) (closed : Bool) (close vol : ℚ)
deriving DecidableEq, Repr

structure VolGlobalState : Type where
  volumeHistory : String → List ℚ
  alertQueue : List VolAlert

/-- The `ws.on('message', ...)` handler of the volume bot
(src/index.ts lines 104-135). -/
def processVolMsg (g : VolGlobalState) : VolMsg → VolGlobalState
  | .malformed => g
  | .kline sym closed c vol =>
    if closed then
      let v := vol * c
      let r := volTick (g.volumeHistory sym) v
      { volumeHistory := Function.update g.volumeHistory sym r.1
        alertQueue := g.alertQueue ++ (if r.2 then [⟨sym, v⟩] else []) }
    else g

def runVolMsgs (g : VolGlobalState) (ms : List VolMsg) : VolGlobalState :=
  ms.foldl processVolMsg g

def projV (B : String) : VolMsg → Option (Bool × ℚ × ℚ)
  | .malformed => none
  | .kline s closed c vol => if s = B then some (closed, c, vol) else none

def volNotAbout (A : String) : VolMsg → Bool
  | .malformed => false
  | .kline s _ _ _ => if s = A then false else true

def volSymStep (w : List ℚ) (e : Bool × ℚ × ℚ) : List ℚ × List ℚ :=
  if e.1 then
    let v := e.2.2 * e.2.1
    let r := volTick w v
    (r.1, if r.2 then [v] else [])
  else (w, [])

def volSymRun (w : List ℚ) : List (Bool × ℚ × ℚ) → List ℚ × List ℚ
  | [] => (w, [])
  | e :: es =>
    let s := volSymStep w e
    let r := volSymRun s.1 es
    (r.1, s.2 ++ r.2)

def volQueueProj (B : String) (q : List VolAlert) : List ℚ :=
  (q.filter (fun a => decide (a.sym = B))).map (fun a => a.volumeUSD)

/-! ### Rolling window lemmas -/

lemma pushEvict_eq_drop (cap : ℕ) (w : List ℚ) (x : ℚ) (h : w.length ≤ cap) :
    pushEvict cap w x = (w ++ [x]).drop (w.length + 1 - cap) := by
  unfold pushEvict
  simp only []
  split_ifs with hgt
  · rw [← List.drop_one]
    congr 1
    simp only [List.length_append, List.length_singleton] at hgt
    omega
  · have h0 : w.length + 1 - cap = 0 := by
      simp only [List.length_append, List.length_singleton, not_lt] at hgt
      omega
    rw [h0, List.drop_zero]

lemma foldl_pushEvict (cap : ℕ) (xs : List ℚ) :
    ∀ init : List ℚ, init.length ≤ cap →
      List.foldl (pushEvict cap) init xs
        = (init ++ xs).drop (init.length + xs.length - cap) := by
  induction xs with
  | nil =>
    intro init h
    have h0 : init.length - cap = 0 := by omega
    simp only [List.foldl_nil, List.append_nil, List.length_nil, Nat.add_zero, h0,
      List.drop_zero]
  | cons x xs ih =>
    intro init h
    rw [List.foldl_cons, pushEvict_eq_drop cap init x h]
    have hlen2 : ((init ++ [x]).drop (init.length + 1 - cap)).length
        = init.length + 1 - (init.length + 1 - cap) := by
      simp [List.length_drop]
    have hlen : ((init ++ [x]).drop (init.length + 1 - cap)).length ≤ cap := by
      rw [hlen2]; omega
    have h1 : ((init ++ [x]) ++ xs).drop (init.length + 1 - cap)
        = ((init ++ [x]).drop (init.length + 1 - cap)) ++ xs := by
      rw [List.drop_append_of_le_length]
      simp only [List.length_append, List.length_singleton]
      omega
    have h2 : (init ++ [x]) ++ xs = init ++ x :: xs := by simp
    rw [ih _ hlen, ← h1, List.drop_drop, h2, hlen2]
    congr 1
    simp only [List.length_cons]
    omega

/-- C2: Rolling window bound and FIFO eviction. Starting from any preloaded
window that respects the capacity (the REST preload fetches at most `limit`
= capacity candles), any sequence of pushes leaves at most `cap` elements,
and the surviving window is exactly the most recent `≤ cap` samples of the
full arrival sequence, in arrival order: the `drop` of everything older.
Instantiating `cap` with `priceWindowCap = 100` gives the momentum
close-price window, with `candleLimit = 30` the volume window. -/
theorem window_fifo (cap : ℕ) (init xs : List ℚ) (h : init.length ≤ cap) :
    (List.foldl (pushEvict cap) init xs).length ≤ cap ∧
    List.foldl (pushEvict cap) init xs
      = (init ++ xs).drop (init.length + xs.length - cap) ∧
    priceWindowCap = 100 ∧ candleLimit = 30 := by
  refine ⟨?_, foldl_pushEvict cap xs init h, rfl, rfl⟩
  rw [foldl_pushEvict cap xs init h]
  simp only [List.length_drop, List.length_append]
  omega

/-- Witness for C2: pushing five samples through a capacity-3 window keeps
exactly the last three, in order. -/
theorem window_fifo_witness :
    (List.foldl (pushEvict 3) ([] : List ℚ) [1, 2, 3, 4, 5]).length ≤ 3 ∧
    List.foldl (pushEvict 3) ([] : List ℚ) [1, 2, 3, 4, 5]
      = (([] : List ℚ) ++ [1, 2, 3, 4, 5]).drop
          (([] : List ℚ).length + ([1, 2, 3, 4, 5] : List ℚ).length - 3) ∧
    priceWindowCap = 100 ∧ candleLimit = 30 :=
  window_fifo 3 [] [1, 2, 3, 4, 5] (by decide)

/-! ### Metric definedness -/

lemma rsiCalculate_length_pos_iff (p : ℕ) (hp : 0 < p) (vs : List ℚ) :
    0 < (rsiCalculate p vs).length ↔ p + 1 ≤ vs.length := by
  have hzip : ((vs.zip vs.tail).map (fun q : ℚ × ℚ => q.2 - q.1)).length
      = vs.length - 1 := by
    simp only [List.length_map, List.length_zip, List.length_tail]
    omega
  simp only [rsiCalculate]
  split_ifs with hc
  · simp only [List.length_nil, Nat.lt_irrefl, false_iff]
    rw [hzip] at hc
    omega
  · rw [hzip] at hc
    simp only [List.length_map, List.length_scanl, List.length_drop, hzip]
    omega

/-- C4: the RSI value fed to the alert decision (`rsi.at(-1)` guarded by
`arr.length >= rsiPeriod`) is defined iff the window holds at least
`rsiPeriod + 1 = 16` prices: with exactly 15 prices the guard passes but
`RSI.calculate` returns an empty list, so `latest` is `undefined`. -/
theorem momentum_metric_defined (arr : List ℚ) :
    (metricOf arr).isSome = true ↔ rsiPeriod + 1 ≤ arr.length := by
  unfold metricOf
  split_ifs with hge
  · rw [List.getLast?_isSome, ← List.length_pos,
      rsiCalculate_length_pos_iff rsiPeriod (by decide)]
  · simp only [Option.isSome_none, Bool.false_eq_true, false_iff]
    unfold rsiPeriod at hge ⊢
    omega

/-- C1: momentum alert state machine transition rule, for any tick whose RSI
value `v` is defined: cross above 80 from a non-High state → alert and state
High; cross below 20 from a non-Low state → alert and state Low; inside
[20, 80] → reset to Neutral, no alert; staying in the same extreme zone →
no alert, state unchanged. The final conjunct ties the decision into the
per-tick pipeline `momentumTick`. -/
theorem momentum_transition (st : AlertType) (v : ℚ) :
    (v > rsiUpper → st ≠ .high → momentumDecide (some v) st = (.high, true)) ∧
    (v < rsiLower → st ≠ .low → momentumDecide (some v) st = (.low, true)) ∧
    (rsiLower ≤ v → v ≤ rsiUpper → momentumDecide (some v) st = (.neutral, false)) ∧
    (v > rsiUpper → st = .high → momentumDecide (some v) st = (st, false)) ∧
    (v < rsiLower → st = .low → momentumDecide (some v) st = (st, false)) ∧
    (∀ (s : MomState) (c : ℚ),
      momentumTick s c
        = (⟨pushEvict priceWindowCap s.window c,
            (momentumDecide (metricOf (pushEvict priceWindowCap s.window c))
              s.alertType).1⟩,
           (momentumDecide (metricOf (pushEvict priceWindowCap s.window c))
              s.alertType).2)) := by
  have hlt : rsiLower < rsiUpper := by unfold rsiLower rsiUpper; norm_num
  refine ⟨?_, ?_, ?_, ?_, ?_, fun s c => rfl⟩
  · intro h1 h2
    simp only [momentumDecide]
    rw [if_pos ⟨h1, h2⟩]
  · intro h1 h2
    have hn1 : ¬(v > rsiUpper ∧ st ≠ .high) := by
      rintro ⟨hv, -⟩
      linarith
    simp only [momentumDecide]
    rw [if_neg hn1, if_pos ⟨h1, h2⟩]
  · intro h1 h2
    have hn1 : ¬(v > rsiUpper ∧ st ≠ .high) := by
      rintro ⟨hv, -⟩
      exact absurd h2 (not_le.mpr hv)
    have hn2 : ¬(v < rsiLower ∧ st ≠ .low) := by
      rintro ⟨hv, -⟩
      exact absurd h1 (not_le.mpr hv)
    simp only [momentumDecide]
    rw [if_neg hn1, if_neg hn2, if_pos ⟨h1, h2⟩]
  · intro h1 h2
    subst h2
    have hn1 : ¬(v > rsiUpper ∧ AlertType.high ≠ AlertType.high) := by simp
    have hn2 : ¬(v < rsiLower ∧ AlertType.high ≠ AlertType.low) := by
      rintro ⟨hv, -⟩
      linarith
    have hn3 : ¬(rsiLower ≤ v ∧ v ≤ rsiUpper) := by
      rintro ⟨-, hv⟩
      exact absurd hv (not_le.mpr h1)
    simp only [momentumDecide]
    rw [if_neg hn1, if_neg hn2, if_neg hn3]
  · intro h1 h2
    subst h2
    have hn1 : ¬(v > rsiUpper ∧ AlertType.low ≠ AlertType.high) := by
      rintro ⟨hv, -⟩
      linarith
    have hn2 : ¬(v < rsiLower ∧ AlertType.low ≠ AlertType.low) := by simp
    have hn3 : ¬(rsiLower ≤ v ∧ v ≤ rsiUpper) := by
      rintro ⟨hv, -⟩
      exact absurd hv (not_le.mpr h1)
    simp only [momentumDecide]
    rw [if_neg hn1, if_neg hn2, if_neg hn3]

/-- Witness for C1: one concrete instance of each alerting/suppressing case. -/
theorem momentum_transition_witness :
    momentumDecide (some 90) .neutral = (.high, true) ∧
    momentumDecide (some 10) .neutral = (.low, true) ∧
    momentumDecide (some 50) .high = (.neutral, false) ∧
    momentumDecide (some 90) .high = (.high, false) ∧
    momentumDecide (some 10) .low = (.low, false) :=
  ⟨(momentum_transition .neutral 90).1 (by decide) (by decide),
   (momentum_transition .neutral 10).2.1 (by decide) (by decide),
   (momentum_transition .high 50).2.2.1 (by decide) (by decide),
   (momentum_transition .high 90).2.2.2.1 (by decide) rfl,
   (momentum_transition .low 10).2.2.2.2.1 (by decide) rfl⟩

/-- C6: edge-triggering and re-arming traces. From Neutral, the metric
sequence [90, 95, 85, 92] emits exactly one alert (index 0); [90, 70, 92]
emits exactly two (indices 0 and 2), because 70 resets the state. -/
theorem momentum_traces :
    runMetrics .neutral [90, 95, 85, 92] = [true, false, false, false] ∧
    runMetrics .neutral [90, 70, 92] = [true, false, true] := by
  constructor <;> decide

/-- C7: an undefined metric is a no-decision: the tick still completes (the
handler is total), no alert is emitted and the alert state is untouched. -/
theorem undefined_metric_no_decision (s : MomState) (c : ℚ)
    (h : metricOf (pushEvict priceWindowCap s.window c) = none) :
    (momentumTick s c).1.alertType = s.alertType ∧ (momentumTick s c).2 = false := by
  simp [momentumTick, h, momentumDecide]

/-- Witness for C7: a first-ever tick of a symbol (window of one price). -/
theorem undefined_metric_no_decision_witness :
    (momentumTick ⟨[], .neutral⟩ 1).1.alertType = AlertType.neutral ∧
    (momentumTick ⟨[], .neutral⟩ 1).2 = false :=
  undefined_metric_no_decision ⟨[], .neutral⟩ 1 (by decide)

/-- C3: the volume bot enqueues an alert iff the history has at least
`candleLimit = 30` entries, the tick's notional volume is at least
`volumeMultiplier = 2` times the mean of that history, and at least
`volumeFloor = 50000`; the mean is over the history *before* the current
sample is appended, and the decision has no per-symbol suppression state,
so any qualifying closed interval fires again. -/
theorem volume_alert_condition (h : List ℚ) (v : ℚ) :
    ((volTick h v).2 = true ↔
      candleLimit ≤ h.length
        ∧ volumeMultiplier * (h.sum / (h.length : ℚ)) ≤ v
        ∧ volumeFloor ≤ v) ∧
    (volTick h v).1 = pushEvict candleLimit h v := by
  refine ⟨?_, rfl⟩
  simp [volTick, ge_iff_le]

/-- C10: an under-filled volume history (fewer than 30 entries, including the
lazily-initialised empty one whose average is `0/0`) never alerts — the
length conjunct fails first — and the sample is still appended whole. -/
theorem volume_underfilled (h : List ℚ) (v : ℚ) (hlen : h.length < candleLimit) :
    (volTick h v).2 = false ∧ (volTick h v).1 = h ++ [v] := by
  constructor
  · have hn : ¬(h.length ≥ candleLimit
        ∧ v ≥ volumeMultiplier * (h.sum / (h.length : ℚ)) ∧ v ≥ volumeFloor) := by
      rintro ⟨h1, -⟩
      omega
    simp [volTick, hn]
  · have hn : ¬(candleLimit < h.length + 1) := by omega
    simp [volTick, pushEvict, hn]

/-- Witness for C10: the very first tick of a symbol, with a volume that
clears both value thresholds but not the length conjunct. -/
theorem volume_underfilled_witness :
    (volTick [] 60000).2 = false ∧ (volTick [] 60000).1 = [] ++ [60000] :=
  volume_underfilled [] 60000 (by decide)

/-- C5: the dispatcher drains one queue tick every `dispatchIntervalMs` ms;
each tick sends at most one alert, always the head (least recently enqueued),
so `k` ticks deliver exactly the first `k` enqueued alerts in enqueue order
and leave the rest; a failed send is never requeued (the element is removed
by `shift()` before the send, and `.catch` only logs). -/
theorem dispatcher_fifo {α : Type} (q : List α) (k : ℕ) :
    drainRun q k = (q.drop k, q.take k) ∧
    (∀ q' : List α, ((drainTick q').2.toList).length ≤ 1) ∧
    dispatchIntervalMs = 1100 := by
  refine ⟨?_, ?_, rfl⟩
  · induction k generalizing q with
    | zero => simp [drainRun]
    | succ k ih =>
      cases q with
      | nil => simp [drainRun, drainTick, ih]
      | cons a rest => simp [drainRun, drainTick, ih]
  · intro q'
    cases q' <;> simp [drainTick]

/-! ### Per-symbol projection lemmas -/

lemma runMsgs_cons (g : GlobalState) (m : Msg) (ms : List Msg) :
    runMsgs g (m :: ms) = runMsgs (processMsg g m) ms := rfl

lemma symRun_cons (x : List ℚ × AlertType) (e : Bool × ℚ) (es : List (Bool × ℚ)) :
    symRun x (e :: es)
      = ((symRun (symStep x e).1 es).1, (symStep x e).2 ++ (symRun (symStep x e).1 es).2) := rfl

lemma queueProj_append (B : String) (q₁ q₂ : List PendingAlert) :
    queueProj B (q₁ ++ q₂) = queueProj B q₁ ++ queueProj B q₂ := by
  simp [queueProj]

lemma queueProj_emit_self (B : String) (t : Bool) (a b : ℚ) :
    queueProj B (if t then [⟨B, a, b⟩] else []) = if t then [(a, b)] else [] := by
  cases t <;> simp [queueProj]

lemma queueProj_emit_other {B sym : String} (h : ¬ sym = B) (t : Bool) (a b : ℚ) :
    queueProj B (if t then [⟨sym, a, b⟩] else []) = [] := by
  cases t <;> simp [queueProj, h]

lemma filterMap_restrict {α β : Type} (f : α → Option β) (p : α → Bool)
    (hf : ∀ x, p x = false → f x = none) :
    ∀ l : List α, l.filterMap f = (l.filter p).filterMap f := by
  intro l
  induction l with
  | nil => rfl
  | cons x l ih =>
    cases hpx : p x with
    | true => simp [List.filter_cons, hpx, List.filterMap_cons, ih]
    | false => simp [List.filter_cons, hpx, List.filterMap_cons, hf x hpx, ih]

/-- Everything the momentum handler does to symbol `B` — its window, its
alert state, and its contribution to the shared queue — is a function of
`B`'s own messages alone. -/
lemma runMsgs_proj (B : String) (ms : List Msg) : ∀ g : GlobalState,
    (runMsgs g ms).closePrices B
        = (symRun (g.closePrices B, g.lastAlert B) (ms.filterMap (projM B))).1.1 ∧
    (runMsgs g ms).lastAlert B
        = (symRun (g.closePrices B, g.lastAlert B) (ms.filterMap (projM B))).1.2 ∧
    queueProj B (runMsgs g ms).alertQueue
        = queueProj B g.alertQueue
            ++ (symRun (g.closePrices B, g.lastAlert B) (ms.filterMap (projM B))).2 := by
  induction ms with
  | nil =>
    intro g
    simp [runMsgs, symRun]
  | cons m ms ih =>
    intro g
    match m with
    | .malformed => exact ih g
    | .kline sym closed c =>
      by_cases hsym : sym = B
      · subst hsym
        cases closed with
        | false =>
          have hfm : (Msg.kline sym false c :: ms).filterMap (projM sym)
              = (false, c) :: ms.filterMap (projM sym) := by
            simp [List.filterMap_cons, projM]
          have hpm : processMsg g (.kline sym false c) = g := rfl
          rw [runMsgs_cons, hfm, symRun_cons, hpm]
          have hstep : symStep (g.closePrices sym, g.lastAlert sym) (false, c)
              = ((g.closePrices sym, g.lastAlert sym), []) := rfl
          rw [hstep]
          simpa using ih g
        | true =>
          have hfm : (Msg.kline sym true c :: ms).filterMap (projM sym)
              = (true, c) :: ms.filterMap (projM sym) := by
            simp [List.filterMap_cons, projM]
          have hc : (processMsg g (.kline sym true c)).closePrices sym
              = (symStep (g.closePrices sym, g.lastAlert sym) (true, c)).1.1 := by
            simp [processMsg, symStep, Function.update_same]
          have hl : (processMsg g (.kline sym true c)).lastAlert sym
              = (symStep (g.closePrices sym, g.lastAlert sym) (true, c)).1.2 := by
            simp [processMsg, symStep, Function.update_same]
          have hq : queueProj sym (processMsg g (.kline sym true c)).alertQueue
              = queueProj sym g.alertQueue
                  ++ (symStep (g.closePrices sym, g.lastAlert sym) (true, c)).2 := by
            simp [processMsg, symStep, queueProj_append, queueProj_emit_self]
          obtain ⟨ha, hb, hq'⟩ := ih (processMsg g (.kline sym true c))
          rw [runMsgs_cons, hfm, symRun_cons]
          refine ⟨?_, ?_, ?_⟩
          · rw [ha, hc, hl]
          · rw [hb, hc, hl]
          · rw [hq', hq, hc, hl, List.append_assoc]
      · have hfm : (Msg.kline sym closed c :: ms).filterMap (projM B)
            = ms.filterMap (projM B) := by
          simp [List.filterMap_cons, projM, hsym]
        have hBs : B ≠ sym := fun h => hsym h.symm
        have hc : (processMsg g (.kline sym closed c)).closePrices B
            = g.closePrices B := by
          cases closed with
          | false => rfl
          | true => simp [processMsg, Function.update_noteq hBs]
        have hl : (processMsg g (.kline sym closed c)).lastAlert B
            = g.lastAlert B := by
          cases closed with
          | false => rfl
          | true => simp [processMsg, Function.update_noteq hBs]
        have hq : queueProj B (processMsg g (.kline sym closed c)).alertQueue
            = queueProj B g.alertQueue := by
          cases closed with
          | false => rfl
          | true => simp [processMsg, queueProj_append, queueProj_emit_other hsym]
        obtain ⟨ha, hb, hq'⟩ := ih (processMsg g (.kline sym closed c))
        rw [runMsgs_cons, hfm]
        refine ⟨?_, ?_, ?_⟩
        · rw [ha, hc, hl]
        · rw [hb, hc, hl]
        · rw [hq', hq, hc, hl]

lemma runVolMsgs_cons (g : VolGlobalState) (m : VolMsg) (ms : List VolMsg) :
    runVolMsgs g (m :: ms) = runVolMsgs (processVolMsg g m) ms := rfl

lemma volSymRun_cons (w : List ℚ) (e : Bool × ℚ × ℚ) (es : List (Bool × ℚ × ℚ)) :
    volSymRun w (e :: es)
      = ((volSymRun (volSymStep w e).1 es).1,
         (volSymStep w e).2 ++ (volSymRun (volSymStep w e).1 es).2) := rfl

lemma volQueueProj_append (B : String) (q₁ q₂ : List VolAlert) :
    volQueueProj B (q₁ ++ q₂) = volQueueProj B q₁ ++ volQueueProj B q₂ := by
  simp [volQueueProj]

lemma volQueueProj_emit_self (B : String) (t : Bool) (a : ℚ) :
    volQueueProj B (if t then [⟨B, a⟩] else []) = if t then [a] else [] := by
  cases t <;> simp [volQueueProj]

lemma volQueueProj_emit_other {B sym : String} (h : ¬ sym = B) (t : Bool) (a : ℚ) :
    volQueueProj B (if t then [⟨sym, a⟩] else []) = [] := by
  cases t <;> simp [volQueueProj, h]

/-- Everything the volume handler does to symbol `B` is a function of `B`'s
own messages alone. -/
lemma runVolMsgs_proj (B : String) (ms : List VolMsg) : ∀ g : VolGlobalState,
    (runVolMsgs g ms).volumeHistory B
        = (volSymRun (g.volumeHistory B) (ms.filterMap (projV B))).1 ∧
    volQueueProj B (runVolMsgs g ms).alertQueue
        = volQueueProj B g.alertQueue
            ++ (volSymRun (g.volumeHistory B) (ms.filterMap (projV B))).2 := by
  induction ms with
  | nil =>
    intro g
    simp [runVolMsgs, volSymRun]
  | cons m ms ih =>
    intro g
    match m with
    | .malformed => exact ih g
    | .kline sym closed c vol =>
      by_cases hsym : sym = B
      · subst hsym
        cases closed with
        | false =>
          have hfm : (VolMsg.kline sym false c vol :: ms).filterMap (projV sym)
              = (false, c, vol) :: ms.filterMap (projV sym) := by
            simp [List.filterMap_cons, projV]
          have hpm : processVolMsg g (.kline sym false c vol) = g := rfl
          rw [runVolMsgs_cons, hfm, volSymRun_cons, hpm]
          have hstep : volSymStep (g.volumeHistory sym) (false, c, vol)
              = (g.volumeHistory sym, []) := rfl
          rw [hstep]
          simpa using ih g
        | true =>
          have hfm : (VolMsg.kline sym true c vol :: ms).filterMap (projV sym)
              = (true, c, vol) :: ms.filterMap (projV sym) := by
            simp [List.filterMap_cons, projV]
          have hc : (processVolMsg g (.kline sym true c vol)).volumeHistory sym
              = (volSymStep (g.volumeHistory sym) (true, c, vol)).1 := by
            simp [processVolMsg, volSymStep, Function.update_same]
          have hq : volQueueProj sym (processVolMsg g (.kline sym true c vol)).alertQueue
              = volQueueProj sym g.alertQueue
                  ++ (volSymStep (g.volumeHistory sym) (true, c, vol)).2 := by
            simp [processVolMsg, volSymStep, volQueueProj_append, volQueueProj_emit_self]
          obtain ⟨ha, hq'⟩ := ih (processVolMsg g (.kline sym true c vol))
          rw [runVolMsgs_cons, hfm, volSymRun_cons]
          refine ⟨?_, ?_⟩
          · rw [ha, hc]
          · rw [hq', hq, hc, List.append_assoc]
      · have hfm : (VolMsg.kline sym closed c vol :: ms).filterMap (projV B)
            = ms.filterMap (projV B) := by
          simp [List.filterMap_cons, projV, hsym]
        have hBs : B ≠ sym := fun h => hsym h.symm
        have hc : (processVolMsg g (.kline sym closed c vol)).volumeHistory B
            = g.volumeHistory B := by
          cases closed with
          | false => rfl
          | true => simp [processVolMsg, Function.update_noteq hBs]
        have hq : volQueueProj B (processVolMsg g (.kline sym closed c vol)).alertQueue
            = volQueueProj B g.alertQueue := by
          cases closed with
          | false => rfl
          | true => simp [processVolMsg, volQueueProj_append, volQueueProj_emit_other hsym]
        obtain ⟨ha, hq'⟩ := ih (processVolMsg g (.kline sym closed c vol))
        rw [runVolMsgs_cons, hfm]
        refine ⟨?_, ?_⟩
        · rw [ha, hc]
        · rw [hq', hq, hc]

/-- C8: a kline event whose `isClosed` flag (`k.x`) is false is dropped by
the early return: neither bot changes any window, alert state, or queue. -/
theorem forming_events_ignored (g : GlobalState) (gv : VolGlobalState)
    (sym : String) (c vol : ℚ) :
    processMsg g (.kline sym false c) = g ∧
    processVolMsg gv (.kline sym false c vol) = gv :=
  ⟨rfl, rfl⟩

/-- C9: per-symbol isolation. If two message streams agree on every
well-formed message not concerning symbol `A` (they may differ arbitrarily
in `A`'s messages and in malformed messages, which throw before mutating and
are caught), then every other symbol `B` ends with the same window, the same
alert state, and the same alert contributions in the shared queue — in both
bots. -/
theorem symbol_isolation (A B : String) (hBA : B ≠ A)
    (g : GlobalState) (ms₁ ms₂ : List Msg)
    (hm : ms₁.filter (notAbout A) = ms₂.filter (notAbout A))
    (gv : VolGlobalState) (vs₁ vs₂ : List VolMsg)
    (hv : vs₁.filter (volNotAbout A) = vs₂.filter (volNotAbout A)) :
    (runMsgs g ms₁).closePrices B = (runMsgs g ms₂).closePrices B ∧
    (runMsgs g ms₁).lastAlert B = (runMsgs g ms₂).lastAlert B ∧
    queueProj B (runMsgs g ms₁).alertQueue = queueProj B (runMsgs g ms₂).alertQueue ∧
    (runVolMsgs gv vs₁).volumeHistory B = (runVolMsgs gv vs₂).volumeHistory B ∧
    volQueueProj B (runVolMsgs gv vs₁).alertQueue
      = volQueueProj B (runVolMsgs gv vs₂).alertQueue := by
  have hproj : ∀ m, notAbout A m = false → projM B m = none := by
    intro m hm'
    match m with
    | .malformed => rfl
    | .kline s closed c =>
      by_cases hs : s = A
      · have hsB : ¬ (s = B) := by
          rw [hs]
          exact fun h => hBA h.symm
        simp [projM, hsB]
      · simp [notAbout, hs] at hm'
  have hprojV : ∀ m, volNotAbout A m = false → projV B m = none := by
    intro m hm'
    match m with
    | .malformed => rfl
    | .kline s closed c vol =>
      by_cases hs : s = A
      · have hsB : ¬ (s = B) := by
          rw [hs]
          exact fun h => hBA h.symm
        simp [projV, hsB]
      · simp [volNotAbout, hs] at hm'
  have e1 : ms₁.filterMap (projM B) = ms₂.filterMap (projM B) := by
    rw [filterMap_restrict (projM B) (notAbout A) hproj ms₁,
      filterMap_restrict (projM B) (notAbout A) hproj ms₂, hm]
  have e2 : vs₁.filterMap (projV B) = vs₂.filterMap (projV B) := by
    rw [filterMap_restrict (projV B) (volNotAbout A) hprojV vs₁,
      filterMap_restrict (projV B) (volNotAbout A) hprojV vs₂, hv]
  obtain ⟨a1, b1, c1⟩ := runMsgs_proj B ms₁ g
  obtain ⟨a2, b2, c2⟩ := runMsgs_proj B ms₂ g
  obtain ⟨d1, f1⟩ := runVolMsgs_proj B vs₁ gv
  obtain ⟨d2, f2⟩ := runVolMsgs_proj B vs₂ gv
  rw [e1] at a1 b1 c1
  rw [e2] at d1 f1
  exact ⟨a1.trans a2.symm, b1.trans b2.symm, c1.trans c2.symm,
    d1.trans d2.symm, f1.trans f2.symm⟩

/-- Witness for C9: a run that processes a closed tick and a malformed
message for symbol a, against a run that processes nothing, leaves symbol b
identical. -/
theorem symbol_isolation_witness :
    (runMsgs ⟨fun _ => [], fun _ => .neutral, []⟩
        [.kline "a" true 1, .malformed]).closePrices "b"
      = (runMsgs ⟨fun _ => [], fun _ => .neutral, []⟩ []).closePrices "b" ∧
    (runMsgs ⟨fun _ => [], fun _ => .neutral, []⟩
        [.kline "a" true 1, .malformed]).lastAlert "b"
      = (runMsgs ⟨fun _ => [], fun _ => .neutral, []⟩ []).lastAlert "b" ∧
    queueProj "b" (runMsgs ⟨fun _ => [], fun _ => .neutral, []⟩
        [.kline "a" true 1, .malformed]).alertQueue
      = queueProj "b" (runMsgs ⟨fun _ => [], fun _ => .neutral, []⟩ []).alertQueue ∧
    (runVolMsgs ⟨fun _ => [], []⟩ [.kline "a" true 1 2]).volumeHistory "b"
      = (runVolMsgs ⟨fun _ => [], []⟩ []).volumeHistory "b" ∧
    volQueueProj "b" (runVolMsgs ⟨fun _ => [], []⟩ [.kline "a" true 1 2]).alertQueue
      = volQueueProj "b" (runVolMsgs ⟨fun _ => [], []⟩ []).alertQueue :=
  symbol_isolation "a" "b" (by decide)
    ⟨fun _ => [], fun _ => .neutral, []⟩ [.kline "a" true 1, .malformed] [] (by rfl)
    ⟨fun _ => [], []⟩ [.kline "a" true 1 2] [] (by rfl)

end RsiSniper
